import Mathlib

/-!
Verification development for the coordinate/image/banner relay server
(src/server.js). The server keeps three in-memory sequences
(coordinateHistory, imageHistory, bannerDataHistory) and serves HTTP
endpoints that validate a JSON body, mutate the sequences and emit
socket events. Every handler below is a direct shallow embedding of the
corresponding Express handler: request bodies are modelled as JSON
values, Date.now() as an explicit natural-number argument, and each
handler returns the new state, the HTTP status and the list of socket
emissions it performs.

Modelling conventions:
  - JSON numbers are modelled as integers; no claim depends on
    non-integral numerics.
  - JavaScript strict equality between a stored value and a value from
    a later request is structural on primitives and false on arrays and
    objects, because two distinct requests never yield the same object
    reference.
  - A missing object field is `Option.none`; JSON has no undefined
    value inside parsed bodies.
  - Property assignment on a non-object target is a silent no-op
    (CommonJS sloppy mode); own properties added to arrays are not
    JSON-serializable, so such an assignment is likewise modelled as
    leaving the value unchanged.
-/

/-- JSON values, the shape of parsed request bodies and stored fields. -/
inductive Json where
  | null : Json
  | bool (b : Bool) : Json
  | num (n : Int) : Json
  | str (s : String) : Json
  | arr (elems : List Json) : Json
  | obj (fields : List (String × Json)) : Json
deriving Repr, Inhabited

/-- JavaScript truthiness test: null, false, 0 and the empty string are
falsy; every array and object is truthy. A missing field (undefined)
is handled by `Option` at the call sites. -/
def isFalsy : Json → Bool
  | Json.null => true
  | Json.bool b => !b
  | Json.num n => n == 0
  | Json.str s => s == ""
  | Json.arr _ => false
  | Json.obj _ => false

/-- JavaScript strict equality between a stored value and a value taken
from a different request: structural on primitives, false on arrays and
objects because distinct requests never share references. -/
def jsStrictEq : Json → Json → Bool
  | Json.null, Json.null => true
  | Json.bool a, Json.bool b => a == b
  | Json.num a, Json.num b => a == b
  | Json.str a, Json.str b => a == b
  | _, _ => false

/-- Field lookup on a JSON object (parsed objects have unique keys);
`none` both for a missing key and for a non-object. -/
def Json.getField : Json → String → Option Json
  | Json.obj fields, k => (fields.find? (fun f => f.1 == k)).map (fun f => f.2)
  | _, _ => none

/-- Property assignment on an association list: overwrite in place when
the key exists, append otherwise. -/
def jsSetKey : List (String × Json) → String → Json → List (String × Json)
  | [], k, v => [(k, v)]
  | f :: rest, k, v =>
      if f.1 == k then (k, v) :: rest else f :: jsSetKey rest k v

/-- Test for a JSON number, mirroring a typeof check. -/
def isNum : Json → Bool
  | Json.num _ => true
  | _ => false

/-- A stored coordinate record: distance, x, z, photoCapture and the
Date.now() timestamp. Validation guarantees the three coordinates are
numbers and photoCapture is 0 or 1. -/
structure CoordinateRecord where
  distance : Int
  x : Int
  z : Int
  photoCapture : Int
  timestamp : Nat
deriving Repr, DecidableEq, Inhabited

/-- A stored image record: the posted imageUrl (any truthy JSON value),
the posted metadata (defaulted to an empty object) and the timestamp. -/
structure ImageRecord where
  url : Json
  metadata : Json
  timestamp : Nat
deriving Repr, Inhabited

/-- A stored banner record: the four posted fields (any truthy JSON
values) and the timestamp. -/
structure BannerRecord where
  imageUrl : Json
  brand : Json
  position : Json
  type : Json
  timestamp : Nat
deriving Repr, Inhabited

/-- The JSON serialization of a banner record, the value stored into the
metadata of a matched image. -/
def bannerToJson (b : BannerRecord) : Json :=
  Json.obj [("imageUrl", b.imageUrl), ("brand", b.brand),
            ("position", b.position), ("type", b.type),
            ("timestamp", Json.num b.timestamp)]

/-- The three in-memory sequences of server.js. -/
structure ServerState where
  coordinateHistory : List CoordinateRecord
  imageHistory : List ImageRecord
  bannerDataHistory : List BannerRecord
deriving Repr, Inhabited

/-- The state at process start: all three sequences empty. -/
def ServerState.initial : ServerState :=
  { coordinateHistory := [], imageHistory := [], bannerDataHistory := [] }

/-- Bound on the coordinate sequence. -/
def MAX_HISTORY_LENGTH : Nat := 100

/-- Socket events the server emits. -/
inductive SocketEvent where
  | newCoordinate (rec : CoordinateRecord)
  | coordinateHistoryEvent (h : List CoordinateRecord)
  | newImage (rec : ImageRecord)
  | imageHistoryEvent (h : List ImageRecord)
  | coordinatesCleared
  | imagesCleared
deriving Repr

/-- An emission: io.emit broadcasts to every connection, socket.emit
targets the single connection of the handler. -/
inductive Emit where
  | broadcast (ev : SocketEvent)
  | toSocket (ev : SocketEvent)
deriving Repr

/-- Result of an HTTP handler: the state after the request, the HTTP
status code and the socket emissions, in order. -/
def HandlerResult := ServerState × Nat × List Emit

/-- Push a coordinate record and drop the oldest entry when the bound is
exceeded: coordinateHistory.push then shift when length exceeds
MAX_HISTORY_LENGTH. -/
def pushTrim (h : List CoordinateRecord) (r : CoordinateRecord) : List CoordinateRecord :=
  if (h ++ [r]).length > MAX_HISTORY_LENGTH then (h ++ [r]).tail else h ++ [r]

/-- POST /api/coordinates. Rejects with 400 when the coordinates field
is missing, not an array or shorter than 3, when the first three
entries are not all numbers, or when the fourth entry (defaulted to 0
by destructuring) is not the number 0 or 1. Otherwise stores the
record, trims the history to the bound and broadcasts new-coordinate. -/
def postCoordinates (st : ServerState) (body : Json) (now : Nat) : HandlerResult :=
  match body.getField "coordinates" with
  | none => (st, 400, [])
  | some coordinates =>
    match coordinates with
    | Json.arr (d :: x :: z :: rest) =>
      let photoCapture := rest.getD 0 (Json.num 0)
      match d, x, z with
      | Json.num dv, Json.num xv, Json.num zv =>
        match photoCapture with
        | Json.num pc =>
          if pc == 0 || pc == 1 then
            let coordinateData : CoordinateRecord :=
              { distance := dv, x := xv, z := zv,
                photoCapture := if pc == 0 then 0 else pc,
                timestamp := now }
            ({ st with coordinateHistory := pushTrim st.coordinateHistory coordinateData },
             200, [Emit.broadcast (SocketEvent.newCoordinate coordinateData)])
          else (st, 400, [])
        | _ => (st, 400, [])
      | _, _, _ => (st, 400, [])
    | _ => (st, 400, [])

/-- POST /api/image. Rejects with 400 when imageUrl is missing or falsy;
otherwise prepends the record (newest first, no bound), broadcasts
new-image and then the full image history. The stored metadata is the
posted metadata when truthy, an empty object otherwise. -/
def postImage (st : ServerState) (body : Json) (now : Nat) : HandlerResult :=
  match body.getField "imageUrl" with
  | none => (st, 400, [])
  | some imageUrl =>
    if isFalsy imageUrl then (st, 400, [])
    else
      let metadata :=
        match body.getField "metadata" with
        | none => Json.obj []
        | some m => if isFalsy m then Json.obj [] else m
      let imageData : ImageRecord :=
        { url := imageUrl, metadata := metadata, timestamp := now }
      let newHistory := imageData :: st.imageHistory
      ({ st with imageHistory := newHistory },
       200,
       [Emit.broadcast (SocketEvent.newImage imageData),
        Emit.broadcast (SocketEvent.imageHistoryEvent newHistory)])

/-- The assignment of the banner record into the metadata of the matched
image. When the metadata is an object the bannerData key is set; on any
other value the assignment has no JSON-observable effect. -/
def setBannerDataField (m : Json) (b : BannerRecord) : Json :=
  match m with
  | Json.obj fields => Json.obj (jsSetKey fields "bannerData" (bannerToJson b))
  | other => other

/-- Mutate the image record at the given index, setting bannerData in
its metadata; every other record is untouched. -/
def updateImageAt : List ImageRecord → Nat → BannerRecord → List ImageRecord
  | [], _, _ => []
  | img :: rest, 0, b =>
      { img with metadata := setBannerDataField img.metadata b } :: rest
  | img :: rest, n + 1, b => img :: updateImageAt rest n b

/-- Index of the first element satisfying the predicate, as
Array.prototype.findIndex restricted to a found/not-found option. -/
def findFirstIdx (p : α → Bool) : List α → Option Nat
  | [] => none
  | a :: rest => if p a then some 0 else (findFirstIdx p rest).map (· + 1)

/-- POST /api/banner_data. Rejects with 400 when any of the four fields
is missing or falsy. Otherwise appends the banner record, then looks
for the first image whose url strictly equals the posted imageUrl; when
one is found its metadata gains the banner record and the full image
history is broadcast. Responds 201. -/
def postBannerData (st : ServerState) (body : Json) (now : Nat) : HandlerResult :=
  match body.getField "imageUrl", body.getField "brand",
        body.getField "position", body.getField "type" with
  | some imageUrl, some brand, some position, some ty =>
    if isFalsy imageUrl || isFalsy brand || isFalsy position || isFalsy ty then
      (st, 400, [])
    else
      let bannerData : BannerRecord :=
        { imageUrl := imageUrl, brand := brand, position := position,
          type := ty, timestamp := now }
      let banners := st.bannerDataHistory ++ [bannerData]
      match findFirstIdx (fun img => jsStrictEq img.url imageUrl) st.imageHistory with
      | some imageIndex =>
        let images := updateImageAt st.imageHistory imageIndex bannerData
        ({ st with imageHistory := images, bannerDataHistory := banners },
         201, [Emit.broadcast (SocketEvent.imageHistoryEvent images)])
      | none =>
        ({ st with bannerDataHistory := banners }, 201, [])
  | _, _, _, _ => (st, 400, [])

/-- GET /api/coordinates: returns the full coordinate sequence and does
not touch the state. -/
def getCoordinates (st : ServerState) : ServerState × List CoordinateRecord :=
  (st, st.coordinateHistory)

/-- GET /api/images: returns the full image sequence and does not touch
the state. -/
def getImages (st : ServerState) : ServerState × List ImageRecord :=
  (st, st.imageHistory)

/-- GET /api/banner_data: returns the full banner sequence and does not
touch the state. -/
def getBannerDataAll (st : ServerState) : ServerState × List BannerRecord :=
  (st, st.bannerDataHistory)

/-- GET /api/banner_data/:imageUrl: linear scan for the first banner
record whose imageUrl strictly equals the path parameter; 200 with the
record when found, 404 otherwise. The state is not touched. -/
def getBannerDataByUrl (st : ServerState) (imageUrl : String) :
    ServerState × Nat × Option BannerRecord :=
  match st.bannerDataHistory.find? (fun item => jsStrictEq item.imageUrl (Json.str imageUrl)) with
  | some data => (st, 200, some data)
  | none => (st, 404, none)

/-- DELETE /api/coordinates: empties the coordinate sequence and
broadcasts coordinates-cleared. -/
def deleteCoordinates (st : ServerState) : ServerState × List Emit :=
  ({ st with coordinateHistory := [] },
   [Emit.broadcast SocketEvent.coordinatesCleared])

/-- DELETE /api/images: empties the image sequence and broadcasts
images-cleared. -/
def deleteImages (st : ServerState) : ServerState × List Emit :=
  ({ st with imageHistory := [] },
   [Emit.broadcast SocketEvent.imagesCleared])

/-- DELETE /api/all: empties all three sequences and broadcasts
coordinates-cleared then images-cleared. -/
def deleteAll (_st : ServerState) : ServerState × List Emit :=
  ({ coordinateHistory := [], imageHistory := [], bannerDataHistory := [] },
   [Emit.broadcast SocketEvent.coordinatesCleared,
    Emit.broadcast SocketEvent.imagesCleared])

/-- The connection handler: the coordinate snapshot is sent to the new
socket when the coordinate history is non-empty, then likewise the
image snapshot; nothing else is sent. -/
def onConnection (st : ServerState) : List Emit :=
  (if st.coordinateHistory.length > 0 then
      [Emit.toSocket (SocketEvent.coordinateHistoryEvent st.coordinateHistory)]
    else []) ++
  (if st.imageHistory.length > 0 then
      [Emit.toSocket (SocketEvent.imageHistoryEvent st.imageHistory)]
    else [])

/-- Replay a list of coordinate POST requests, each a body with its
Date.now() value. -/
def runCoordinateRequests (st : ServerState) (reqs : List (Json × Nat)) : ServerState :=
  reqs.foldl (fun s rq => (postCoordinates s rq.1 rq.2).1) st

/-- Body of a valid three-element coordinate POST. -/
def coordBody3 (d x z : Int) : Json :=
  Json.obj [("coordinates", Json.arr [Json.num d, Json.num x, Json.num z])]

/-- The record stored for a valid three-element coordinate POST with the
given distance, x, z and timestamp. -/
def mkCoordRecord (q : Int × Int × Int × Nat) : CoordinateRecord :=
  { distance := q.1, x := q.2.1, z := q.2.2.1, photoCapture := 0,
    timestamp := q.2.2.2 }

/-- Replay a list of valid three-element coordinate POSTs given as
distance, x, z, timestamp tuples. -/
def runValidCoordinatePosts (st : ServerState)
    (inputs : List (Int × Int × Int × Nat)) : ServerState :=
  inputs.foldl
    (fun s q => (postCoordinates s (coordBody3 q.1 q.2.1 q.2.2.1) q.2.2.2).1) st

/-- Body of a valid image POST: an imageUrl field and an optional
metadata field. -/
def imageBodyOf (u : Json) (m : Option Json) : Json :=
  Json.obj (("imageUrl", u) ::
    (match m with
     | some mv => [("metadata", mv)]
     | none => []))

/-- The metadata actually stored for an image POST: the posted metadata
when truthy, an empty object otherwise. -/
def storedMetadata (m : Option Json) : Json :=
  match m with
  | none => Json.obj []
  | some mv => if isFalsy mv then Json.obj [] else mv

/-- Body of a banner POST carrying the four required fields. -/
def bannerBodyOf (u b p ty : Json) : Json :=
  Json.obj [("imageUrl", u), ("brand", b), ("position", p), ("type", ty)]

/-- Concrete 101-record input used to witness the coordinate bound. -/
def c1WitnessInputs : List (Int × Int × Int × Nat) :=
  (List.range 101).map (fun i => ((0 : Int), (0 : Int), (0 : Int), i))

/-- Concrete coordinate record used in witnesses. -/
def c7Record : CoordinateRecord :=
  { distance := 1, x := 2, z := 3, photoCapture := 0, timestamp := 4 }

/-- Concrete state with one coordinate record and no images, used to
witness the on-connect behavior. -/
def c7State : ServerState :=
  { coordinateHistory := [c7Record], imageHistory := [], bannerDataHistory := [] }

/-- Concrete banner record used to witness the banner lookup endpoint. -/
def c5Banner : BannerRecord :=
  { imageUrl := Json.str "a", brand := Json.str "b", position := Json.str "p",
    type := Json.str "t", timestamp := 0 }

/-- Concrete state with a single banner record, used to witness the
banner lookup endpoint. -/
def c5State : ServerState :=
  { coordinateHistory := [], imageHistory := [], bannerDataHistory := [c5Banner] }

/-- State reached by posting an image with url "a" and metadata 5 (a
truthy non-object, accepted by the image endpoint). -/
def c2ImageState : ServerState :=
  (postImage ServerState.initial (imageBodyOf (Json.str "a") (some (Json.num 5))) 0).1

/-- Banner body with imageUrl "a" used in the banner-attach scenarios. -/
def c2BannerBody : Json :=
  bannerBodyOf (Json.str "a") (Json.str "b") (Json.str "p") (Json.str "t")

/-- State reached by posting an image with url "a" and no metadata, so
the stored metadata is the empty object. -/
def imgStateA : ServerState :=
  (postImage ServerState.initial (imageBodyOf (Json.str "a") none) 0).1

/-- State reached from imgStateA by posting two banner records with the
same imageUrl "a" at times 1 and 2. -/
def c10Post2 : ServerState :=
  (postBannerData (postBannerData imgStateA
      (bannerBodyOf (Json.str "a") (Json.str "B1") (Json.str "P1")
        (Json.str "T1")) 1).1
    (bannerBodyOf (Json.str "a") (Json.str "B2") (Json.str "P2")
      (Json.str "T2")) 2).1

theorem postCoordinates_valid (st : ServerState) (d x z : Int) (t : Nat) :
    postCoordinates st (coordBody3 d x z) t =
      ({ st with coordinateHistory :=
           pushTrim st.coordinateHistory (mkCoordRecord (d, x, z, t)) }, 200,
       [Emit.broadcast (SocketEvent.newCoordinate (mkCoordRecord (d, x, z, t)))]) :=
  rfl

theorem postCoordinates_cases (st : ServerState) (body : Json) (now : Nat) :
    postCoordinates st body now = (st, 400, []) ∨
    ∃ r, postCoordinates st body now =
      ({ st with coordinateHistory := pushTrim st.coordinateHistory r }, 200,
       [Emit.broadcast (SocketEvent.newCoordinate r)]) := by
  unfold postCoordinates
  repeat' first
    | (left; rfl)
    | (right; exact ⟨_, rfl⟩)
    | split
    | dsimp only

theorem pushTrim_length_le (h : List CoordinateRecord) (r : CoordinateRecord)
    (hh : h.length ≤ MAX_HISTORY_LENGTH) :
    (pushTrim h r).length ≤ MAX_HISTORY_LENGTH := by
  unfold pushTrim
  split
  · rename_i hc
    simp only [List.length_tail, List.length_append, List.length_singleton]
    omega
  · rename_i hc
    simp only [List.length_append, List.length_singleton, gt_iff_lt, Nat.not_lt] at hc
    simp only [List.length_append, List.length_singleton]
    omega

theorem foldl_pushTrim_eq_drop (recs : List CoordinateRecord) :
    ∀ h : List CoordinateRecord, h.length ≤ MAX_HISTORY_LENGTH →
      recs.foldl pushTrim h =
        (h ++ recs).drop (h.length + recs.length - MAX_HISTORY_LENGTH) := by
  induction recs with
  | nil =>
    intro h hh
    simp [Nat.sub_eq_zero_of_le hh]
  | cons r rs ih =>
    intro h hh
    have hstep : List.foldl pushTrim h (r :: rs) = List.foldl pushTrim (pushTrim h r) rs := rfl
    rw [hstep, ih (pushTrim h r) (pushTrim_length_le h r hh)]
    by_cases hlen : h.length + 1 > MAX_HISTORY_LENGTH
    · have hpt : pushTrim h r = (h ++ [r]).drop 1 := by
        unfold pushTrim
        rw [if_pos (by simp only [List.length_append, List.length_singleton]; omega)]
        exact (List.drop_one _).symm
      rw [hpt]
      have hlen2 : ((h ++ [r]).drop 1).length = h.length := by
        simp
      rw [hlen2]
      have happ : ((h ++ [r]) ++ rs).drop 1 = (h ++ [r]).drop 1 ++ rs :=
        List.drop_append_of_le_length (by simp)
      rw [← happ, List.drop_drop]
      have hassoc : (h ++ [r]) ++ rs = h ++ (r :: rs) := by
        simp
      rw [hassoc]
      have hidx : 1 + (h.length + rs.length - MAX_HISTORY_LENGTH) =
          h.length + (r :: rs).length - MAX_HISTORY_LENGTH := by
        simp only [List.length_cons]
        omega
      rw [hidx]
    · have hpt : pushTrim h r = h ++ [r] := by
        unfold pushTrim
        rw [if_neg (by simp only [List.length_append, List.length_singleton]; omega)]
      rw [hpt]
      have hassoc : (h ++ [r]) ++ rs = h ++ (r :: rs) := by
        simp
      rw [hassoc]
      have hidx : (h ++ [r]).length + rs.length - MAX_HISTORY_LENGTH =
          h.length + (r :: rs).length - MAX_HISTORY_LENGTH := by
        simp only [List.length_append, List.length_cons, List.length_nil,
          MAX_HISTORY_LENGTH]
        omega
      rw [hidx]

theorem getD_mem_of_lt {α : Type} (l : List α) (n : Nat) (d : α)
    (h : n < l.length) : l.getD n d ∈ l := by
  have h2 : l.getD n d = l.get ⟨n, h⟩ := by
    simp [List.getD_eq_getElem?_getD, List.getElem?_eq_getElem h]
  rw [h2]
  exact List.get_mem l n h

theorem runCoordinateRequests_length_le (reqs : List (Json × Nat)) :
    ∀ st : ServerState, st.coordinateHistory.length ≤ MAX_HISTORY_LENGTH →
      (runCoordinateRequests st reqs).coordinateHistory.length ≤ MAX_HISTORY_LENGTH := by
  induction reqs with
  | nil => intro st h; exact h
  | cons rq rest ih =>
    intro st h
    have hstep : runCoordinateRequests st (rq :: rest) =
        runCoordinateRequests (postCoordinates st rq.1 rq.2).1 rest := rfl
    rw [hstep]
    apply ih
    rcases postCoordinates_cases st rq.1 rq.2 with hc | ⟨r, hc⟩
    · rw [hc]; exact h
    · rw [hc]; exact pushTrim_length_le _ _ h

theorem runValidCoordinatePosts_history (inputs : List (Int × Int × Int × Nat)) :
    ∀ st : ServerState,
      (runValidCoordinatePosts st inputs).coordinateHistory =
        (inputs.map mkCoordRecord).foldl pushTrim st.coordinateHistory := by
  induction inputs with
  | nil => intro st; rfl
  | cons q rest ih =>
    intro st
    have hstep : runValidCoordinatePosts st (q :: rest) =
        runValidCoordinatePosts
          (postCoordinates st (coordBody3 q.1 q.2.1 q.2.2.1) q.2.2.2).1 rest := rfl
    rw [hstep, postCoordinates_valid, ih]
    rfl

/-- C1: over any sequence of coordinate POSTs from the initial state the
stored coordinate sequence never exceeds 100 entries, and eviction is
oldest first: after 101 valid inserts with pairwise distinct timestamps
the final history is the tail of the inserted records, so the first
(oldest) record is absent and the 101st is present. -/
theorem coordinateHistory_bounded_and_oldest_evicted
    (reqs : List (Json × Nat)) (inputs : List (Int × Int × Int × Nat))
    (hlen : inputs.length = 101)
    (hts : (inputs.map (fun q => q.2.2.2)).Nodup) :
    (runCoordinateRequests ServerState.initial reqs).coordinateHistory.length
        ≤ MAX_HISTORY_LENGTH ∧
    (runValidCoordinatePosts ServerState.initial inputs).coordinateHistory
        = (inputs.map mkCoordRecord).tail ∧
    mkCoordRecord (inputs.getD 0 default)
        ∉ (runValidCoordinatePosts ServerState.initial inputs).coordinateHistory ∧
    mkCoordRecord (inputs.getD 100 default)
        ∈ (runValidCoordinatePosts ServerState.initial inputs).coordinateHistory := by
  have hbound := runCoordinateRequests_length_le reqs ServerState.initial
    (by simp [ServerState.initial])
  have hrecs : (inputs.map mkCoordRecord).length = 101 := by simp [hlen]
  have hhist : (runValidCoordinatePosts ServerState.initial inputs).coordinateHistory
      = (inputs.map mkCoordRecord).tail := by
    rw [runValidCoordinatePosts_history]
    have hfold := foldl_pushTrim_eq_drop (inputs.map mkCoordRecord)
      ([] : List CoordinateRecord) (by simp [MAX_HISTORY_LENGTH])
    have hinit : ServerState.initial.coordinateHistory = ([] : List CoordinateRecord) := rfl
    rw [hinit, hfold]
    have hidx : ([] : List CoordinateRecord).length
        + (inputs.map mkCoordRecord).length - MAX_HISTORY_LENGTH = 1 := by
      simp [hrecs, MAX_HISTORY_LENGTH]
    rw [hidx]
    simp [List.drop_one]
  have hmapts : (inputs.map mkCoordRecord).map CoordinateRecord.timestamp
      = inputs.map (fun q => q.2.2.2) := by
    rw [List.map_map]
    rfl
  have hnodup : (inputs.map mkCoordRecord).Nodup := by
    have h2 : ((inputs.map mkCoordRecord).map CoordinateRecord.timestamp).Nodup := by
      rw [hmapts]; exact hts
    exact h2.of_map _
  obtain ⟨q0, qrest, hq⟩ : ∃ q0 qrest, inputs = q0 :: qrest := by
    cases inputs with
    | nil => simp at hlen
    | cons a t => exact ⟨a, t, rfl⟩
  subst hq
  have hqlen : qrest.length = 100 := by simpa using hlen
  simp only [List.map_cons, List.tail_cons] at hhist
  simp only [List.map_cons] at hnodup
  refine ⟨hbound, by simpa using hhist, ?_, ?_⟩
  · rw [hhist]
    have hgd : (q0 :: qrest).getD 0 default = q0 := rfl
    rw [hgd]
    exact (List.nodup_cons.mp hnodup).1
  · rw [hhist]
    have hgd : (q0 :: qrest).getD 100 default = qrest.getD 99 default := by
      simp [List.getD_cons_succ]
    rw [hgd]
    exact List.mem_map_of_mem mkCoordRecord
      (getD_mem_of_lt qrest 99 default (by omega))

theorem coordinateHistory_bounded_and_oldest_evicted_witness :
    (c1WitnessInputs.length = 101 ∧
     (c1WitnessInputs.map (fun q => q.2.2.2)).Nodup) ∧
    ((runCoordinateRequests ServerState.initial []).coordinateHistory.length
        ≤ MAX_HISTORY_LENGTH ∧
     (runValidCoordinatePosts ServerState.initial c1WitnessInputs).coordinateHistory
        = (c1WitnessInputs.map mkCoordRecord).tail ∧
     mkCoordRecord (c1WitnessInputs.getD 0 default)
        ∉ (runValidCoordinatePosts ServerState.initial c1WitnessInputs).coordinateHistory ∧
     mkCoordRecord (c1WitnessInputs.getD 100 default)
        ∈ (runValidCoordinatePosts ServerState.initial c1WitnessInputs).coordinateHistory) := by
  have h1 : c1WitnessInputs.length = 101 := by simp [c1WitnessInputs]
  have h2 : (c1WitnessInputs.map (fun q => q.2.2.2)).Nodup := by
    have hcomp : ((fun (q : Int × Int × Int × Nat) => q.2.2.2)
        ∘ fun (i : Nat) => ((0 : Int), (0 : Int), (0 : Int), i)) = id := rfl
    simp only [c1WitnessInputs, List.map_map, hcomp, List.map_id]
    exact List.nodup_range 101
  exact ⟨⟨h1, h2⟩,
    coordinateHistory_bounded_and_oldest_evicted [] c1WitnessInputs h1 h2⟩

theorem imageBodyOf_getField_imageUrl (u : Json) (m : Option Json) :
    (imageBodyOf u m).getField "imageUrl" = some u := by
  cases m <;> rfl

theorem imageBodyOf_getField_metadata (u : Json) (m : Option Json) :
    (imageBodyOf u m).getField "metadata" = m := by
  cases m <;> rfl

theorem postImage_valid (st : ServerState) (u : Json) (m : Option Json) (now : Nat)
    (hu : isFalsy u = false) :
    postImage st (imageBodyOf u m) now =
      ({ st with imageHistory :=
           { url := u, metadata := storedMetadata m, timestamp := now } :: st.imageHistory },
       200,
       [Emit.broadcast (SocketEvent.newImage
          { url := u, metadata := storedMetadata m, timestamp := now }),
        Emit.broadcast (SocketEvent.imageHistoryEvent
          ({ url := u, metadata := storedMetadata m, timestamp := now } :: st.imageHistory))]) := by
  unfold postImage
  rw [imageBodyOf_getField_imageUrl, imageBodyOf_getField_metadata]
  cases m <;> simp [hu, storedMetadata]

theorem postImage_cases (st : ServerState) (body : Json) (now : Nat) :
    postImage st body now = (st, 400, []) ∨
    ∃ r, postImage st body now =
      ({ st with imageHistory := r :: st.imageHistory }, 200,
       [Emit.broadcast (SocketEvent.newImage r),
        Emit.broadcast (SocketEvent.imageHistoryEvent (r :: st.imageHistory))]) := by
  unfold postImage
  repeat' first
    | (left; rfl)
    | (right; exact ⟨_, rfl⟩)
    | split

theorem postBannerData_cases (st : ServerState) (body : Json) (now : Nat) :
    postBannerData st body now = (st, 400, []) ∨
    (postBannerData st body now).2.1 = 201 := by
  unfold postBannerData
  repeat' first
    | (left; rfl)
    | (right; rfl)
    | split

theorem pushTrim_getLast (h : List CoordinateRecord) (r : CoordinateRecord) :
    (pushTrim h r).getLast? = some r := by
  unfold pushTrim
  split
  · rename_i hc
    have hlen : 1 ≤ h.length := by
      simp only [List.length_append, List.length_cons, List.length_nil,
        MAX_HISTORY_LENGTH, gt_iff_lt] at hc
      omega
    rw [← List.drop_one, List.drop_append_of_le_length hlen, List.drop_one]
    simp [List.getLast?_concat]
  · simp [List.getLast?_concat]

/-- C3: the image sequence is unbounded and strictly newest first: two
valid image POSTs A then B from the initial state yield the sequence
consisting of the record of B followed by the record of A, and no image
POST ever removes an existing image record (the previous history is
always a suffix of the new one). -/
theorem imageHistory_newest_first_and_no_removal
    (uA uB : Json) (mA mB : Option Json) (tA tB : Nat)
    (hA : isFalsy uA = false) (hB : isFalsy uB = false) :
    ((postImage (postImage ServerState.initial (imageBodyOf uA mA) tA).1
        (imageBodyOf uB mB) tB).1.imageHistory =
      [{ url := uB, metadata := storedMetadata mB, timestamp := tB },
       { url := uA, metadata := storedMetadata mA, timestamp := tA }]) ∧
    ∀ (st : ServerState) (body : Json) (now : Nat),
      ∃ pre, (postImage st body now).1.imageHistory = pre ++ st.imageHistory := by
  constructor
  · rw [postImage_valid ServerState.initial uA mA tA hA]
    rw [postImage_valid _ uB mB tB hB]
    rfl
  · intro st body now
    rcases postImage_cases st body now with hc | ⟨r, hc⟩
    · exact ⟨[], by rw [hc]; rfl⟩
    · exact ⟨[r], by rw [hc]; rfl⟩

theorem imageHistory_newest_first_and_no_removal_witness :
    (isFalsy (Json.str "a") = false ∧ isFalsy (Json.str "b") = false) ∧
    ((postImage (postImage ServerState.initial
        (imageBodyOf (Json.str "a") none) 0).1
        (imageBodyOf (Json.str "b") none) 1).1.imageHistory =
      [{ url := Json.str "b", metadata := storedMetadata none, timestamp := 1 },
       { url := Json.str "a", metadata := storedMetadata none, timestamp := 0 }]) ∧
    (∀ (st : ServerState) (body : Json) (now : Nat),
      ∃ pre, (postImage st body now).1.imageHistory = pre ++ st.imageHistory) := by
  have h := imageHistory_newest_first_and_no_removal
    (Json.str "a") (Json.str "b") none none 0 1 rfl rfl
  exact ⟨⟨rfl, rfl⟩, h.1, h.2⟩

/-- C4: POST /api/coordinates rejects with 400 any payload whose
coordinates array is shorter than 3 or whose first three entries are
not all numbers, and accepts with 200 a three-element numeric array,
storing photoCapture 0 when the flag is omitted. -/
theorem postCoordinates_validation
    (st : ServerState) (now : Nat) (elems elems2 : List Json) (a b c : Int)
    (h1 : elems.length < 3)
    (h2 : 3 ≤ elems2.length)
    (h3 : (isNum (elems2.getD 0 Json.null) && isNum (elems2.getD 1 Json.null)
           && isNum (elems2.getD 2 Json.null)) = false) :
    postCoordinates st (Json.obj [("coordinates", Json.arr elems)]) now
      = (st, 400, []) ∧
    postCoordinates st (Json.obj [("coordinates", Json.arr elems2)]) now
      = (st, 400, []) ∧
    (postCoordinates st (coordBody3 a b c) now).2.1 = 200 ∧
    (postCoordinates st (coordBody3 a b c) now).1.coordinateHistory.getLast?
      = some { distance := a, x := b, z := c, photoCapture := 0, timestamp := now } := by
  refine ⟨?_, ?_, ?_, ?_⟩
  · match elems, h1 with
    | [], _ => rfl
    | [e1], _ => rfl
    | [e1, e2], _ => rfl
    | e1 :: e2 :: e3 :: rest, h =>
      exfalso
      simp only [List.length_cons] at h
      omega
  · obtain ⟨e1, e2, e3, rest, hsh⟩ : ∃ e1 e2 e3 rest,
        elems2 = e1 :: e2 :: e3 :: rest := by
      match elems2, h2 with
      | e1 :: e2 :: e3 :: rest, _ => exact ⟨e1, e2, e3, rest, rfl⟩
      | [], h => simp at h
      | [e1], h => simp at h
      | [e1, e2], h => simp at h
    subst hsh
    simp only [List.getD_cons_zero, List.getD_cons_succ] at h3
    cases e1 <;> cases e2 <;> cases e3 <;>
      first
        | rfl
        | simp [isNum] at h3
  · rw [postCoordinates_valid]
  · rw [postCoordinates_valid]
    exact pushTrim_getLast _ _

theorem postCoordinates_validation_witness :
    (([Json.num 1, Json.num 2] : List Json).length < 3 ∧
     3 ≤ ([Json.str "a", Json.num 1, Json.num 2] : List Json).length ∧
     (isNum (([Json.str "a", Json.num 1, Json.num 2] : List Json).getD 0 Json.null) &&
      isNum (([Json.str "a", Json.num 1, Json.num 2] : List Json).getD 1 Json.null) &&
      isNum (([Json.str "a", Json.num 1, Json.num 2] : List Json).getD 2 Json.null)) = false) ∧
    (postCoordinates ServerState.initial
        (Json.obj [("coordinates", Json.arr [Json.num 1, Json.num 2])]) 5
      = (ServerState.initial, 400, []) ∧
     postCoordinates ServerState.initial
        (Json.obj [("coordinates", Json.arr [Json.str "a", Json.num 1, Json.num 2])]) 5
      = (ServerState.initial, 400, []) ∧
     (postCoordinates ServerState.initial (coordBody3 1 2 3) 5).2.1 = 200 ∧
     (postCoordinates ServerState.initial (coordBody3 1 2 3) 5).1.coordinateHistory.getLast?
      = some { distance := 1, x := 2, z := 3, photoCapture := 0, timestamp := 5 }) := by
  have h := postCoordinates_validation ServerState.initial 5
    [Json.num 1, Json.num 2] [Json.str "a", Json.num 1, Json.num 2] 1 2 3
    (by decide) (by decide) (by decide)
  exact ⟨⟨by decide, by decide, by decide⟩, h⟩

/-- C6: DELETE /api/all empties all three sequences, subsequent GETs on
each endpoint return empty sequences, and exactly two clear events are
broadcast, coordinates-cleared then images-cleared. -/
theorem deleteAll_empties_everything_and_broadcasts_two_clears (st : ServerState) :
    (getCoordinates (deleteAll st).1).2 = [] ∧
    (getImages (deleteAll st).1).2 = [] ∧
    (getBannerDataAll (deleteAll st).1).2 = [] ∧
    (deleteAll st).2 = [Emit.broadcast SocketEvent.coordinatesCleared,
                        Emit.broadcast SocketEvent.imagesCleared] :=
  ⟨rfl, rfl, rfl, rfl⟩

/-- C8: whenever one of the three POST handlers answers 400, the state
is left unchanged and no socket event is emitted. -/
theorem rejected_posts_are_atomic (st : ServerState) (body : Json) (now : Nat) :
    ((postCoordinates st body now).2.1 = 400 →
      (postCoordinates st body now).1 = st ∧ (postCoordinates st body now).2.2 = []) ∧
    ((postImage st body now).2.1 = 400 →
      (postImage st body now).1 = st ∧ (postImage st body now).2.2 = []) ∧
    ((postBannerData st body now).2.1 = 400 →
      (postBannerData st body now).1 = st ∧ (postBannerData st body now).2.2 = []) := by
  refine ⟨?_, ?_, ?_⟩
  · intro hs
    rcases postCoordinates_cases st body now with hc | ⟨r, hc⟩
    · rw [hc]; exact ⟨rfl, rfl⟩
    · rw [hc] at hs; simp at hs
  · intro hs
    rcases postImage_cases st body now with hc | ⟨r, hc⟩
    · rw [hc]; exact ⟨rfl, rfl⟩
    · rw [hc] at hs; simp at hs
  · intro hs
    rcases postBannerData_cases st body now with hc | hc
    · rw [hc]; exact ⟨rfl, rfl⟩
    · rw [hc] at hs; simp at hs

theorem rejected_posts_are_atomic_witness :
    ((postCoordinates ServerState.initial (Json.obj []) 0).2.1 = 400 ∧
     (postImage ServerState.initial (Json.obj []) 0).2.1 = 400 ∧
     (postBannerData ServerState.initial (Json.obj []) 0).2.1 = 400) ∧
    ((postCoordinates ServerState.initial (Json.obj []) 0).1 = ServerState.initial ∧
     (postCoordinates ServerState.initial (Json.obj []) 0).2.2 = []) ∧
    ((postImage ServerState.initial (Json.obj []) 0).1 = ServerState.initial ∧
     (postImage ServerState.initial (Json.obj []) 0).2.2 = []) ∧
    ((postBannerData ServerState.initial (Json.obj []) 0).1 = ServerState.initial ∧
     (postBannerData ServerState.initial (Json.obj []) 0).2.2 = []) := by
  have h := rejected_posts_are_atomic ServerState.initial (Json.obj []) 0
  exact ⟨⟨rfl, rfl, rfl⟩, h.1 rfl, h.2.1 rfl, h.2.2 rfl⟩

/-- C9: DELETE /api/coordinates leaves the image and banner sequences
unchanged, DELETE /api/images leaves the coordinate and banner
sequences unchanged, and every GET endpoint leaves all three sequences
unchanged. -/
theorem deletes_and_reads_are_framed (st : ServerState) (url : String) :
    (deleteCoordinates st).1.imageHistory = st.imageHistory ∧
    (deleteCoordinates st).1.bannerDataHistory = st.bannerDataHistory ∧
    (deleteImages st).1.coordinateHistory = st.coordinateHistory ∧
    (deleteImages st).1.bannerDataHistory = st.bannerDataHistory ∧
    (getCoordinates st).1 = st ∧
    (getImages st).1 = st ∧
    (getBannerDataAll st).1 = st ∧
    (getBannerDataByUrl st url).1 = st := by
  refine ⟨rfl, rfl, rfl, rfl, rfl, rfl, rfl, ?_⟩
  unfold getBannerDataByUrl
  split <;> rfl

/-- C7: on a new connection the coordinate snapshot is sent to that
socket iff the coordinate history is non-empty, the image snapshot iff
the image history is non-empty, every emission is one of those two
socket-targeted snapshot events (in particular no banner-specific
event), and a client connecting while both histories are empty gets
nothing. -/
theorem onConnection_seeds_iff_nonempty (st : ServerState) :
    (st.coordinateHistory = [] ∧ st.imageHistory = [] → onConnection st = []) ∧
    (st.coordinateHistory ≠ [] →
      Emit.toSocket (SocketEvent.coordinateHistoryEvent st.coordinateHistory)
        ∈ onConnection st) ∧
    (st.coordinateHistory = [] →
      ∀ h, Emit.toSocket (SocketEvent.coordinateHistoryEvent h) ∉ onConnection st) ∧
    (st.imageHistory ≠ [] →
      Emit.toSocket (SocketEvent.imageHistoryEvent st.imageHistory)
        ∈ onConnection st) ∧
    (st.imageHistory = [] →
      ∀ h, Emit.toSocket (SocketEvent.imageHistoryEvent h) ∉ onConnection st) ∧
    (∀ e ∈ onConnection st,
      (∃ h, e = Emit.toSocket (SocketEvent.coordinateHistoryEvent h)) ∨
      (∃ h, e = Emit.toSocket (SocketEvent.imageHistoryEvent h))) := by
  unfold onConnection
  by_cases hc : st.coordinateHistory = [] <;> by_cases hi : st.imageHistory = [] <;>
    simp [hc, hi, List.length_pos_of_ne_nil]

theorem onConnection_seeds_iff_nonempty_witness :
    (ServerState.initial.coordinateHistory = [] ∧
     ServerState.initial.imageHistory = [] ∧
     onConnection ServerState.initial = []) ∧
    (c7State.coordinateHistory ≠ [] ∧
     Emit.toSocket (SocketEvent.coordinateHistoryEvent c7State.coordinateHistory)
       ∈ onConnection c7State ∧
     c7State.imageHistory = [] ∧
     ∀ h, Emit.toSocket (SocketEvent.imageHistoryEvent h) ∉ onConnection c7State) := by
  have h0 := onConnection_seeds_iff_nonempty ServerState.initial
  have h1 := onConnection_seeds_iff_nonempty c7State
  exact ⟨⟨rfl, rfl, h0.1 ⟨rfl, rfl⟩⟩,
    ⟨by decide, h1.2.1 (by decide), rfl, h1.2.2.2.2.1 rfl⟩⟩

theorem find?_first_characterization {α : Type} (p : α → Bool) :
    ∀ (l : List α) (i : Nat) (d : α), i < l.length →
      p (l.getD i d) = true →
      (∀ j, j < i → p (l.getD j d) = false) →
      l.find? p = some (l.getD i d) := by
  intro l
  induction l with
  | nil =>
    intro i d hi
    simp at hi
  | cons a t ih =>
    intro i d hi hp hfirst
    cases i with
    | zero =>
      simp only [List.getD_cons_zero] at hp
      simp [List.find?, hp]
    | succ i =>
      have ha : p a = false := by
        have := hfirst 0 (Nat.succ_pos i)
        simpa using this
      simp only [List.getD_cons_succ] at hp
      have hlen : i < t.length := by
        simp only [List.length_cons] at hi
        omega
      have hfirst2 : ∀ j, j < i → p (t.getD j d) = false := by
        intro j hj
        have := hfirst (j + 1) (by omega)
        simpa using this
      simp only [List.getD_cons_succ, List.find?, ha]
      exact ih i d hlen hp hfirst2

/-- C5: GET /api/banner_data/:imageUrl returns 200 with the first banner
record whose imageUrl equals the path parameter when one exists, and
404 when no stored banner record has that imageUrl. -/
theorem getBannerDataByUrl_first_match_or_404
    (st : ServerState) (url : String) (i : Nat)
    (hi : i < st.bannerDataHistory.length)
    (hp : jsStrictEq (st.bannerDataHistory.getD i default).imageUrl
        (Json.str url) = true)
    (hfirst : ∀ j, j < i →
      jsStrictEq (st.bannerDataHistory.getD j default).imageUrl
        (Json.str url) = false) :
    getBannerDataByUrl st url
      = (st, 200, some (st.bannerDataHistory.getD i default)) ∧
    ∀ st2 : ServerState,
      (∀ b ∈ st2.bannerDataHistory,
        jsStrictEq b.imageUrl (Json.str url) = false) →
      getBannerDataByUrl st2 url = (st2, 404, none) := by
  constructor
  · unfold getBannerDataByUrl
    rw [find?_first_characterization
      (fun item => jsStrictEq item.imageUrl (Json.str url))
      st.bannerDataHistory i default hi hp hfirst]
  · intro st2 hall
    have hnone : st2.bannerDataHistory.find?
        (fun item => jsStrictEq item.imageUrl (Json.str url)) = none := by
      rw [List.find?_eq_none]
      intro b hb
      simp [hall b hb]
    unfold getBannerDataByUrl
    rw [hnone]

theorem getBannerDataByUrl_first_match_or_404_witness :
    (0 < c5State.bannerDataHistory.length ∧
     jsStrictEq (c5State.bannerDataHistory.getD 0 default).imageUrl
       (Json.str "a") = true) ∧
    (getBannerDataByUrl c5State "a"
       = (c5State, 200, some (c5State.bannerDataHistory.getD 0 default)) ∧
     getBannerDataByUrl ServerState.initial "a"
       = (ServerState.initial, 404, none)) := by
  have h := getBannerDataByUrl_first_match_or_404 c5State "a" 0
    (by decide) (by decide) (fun j hj => absurd hj (Nat.not_lt_zero j))
  refine ⟨⟨by decide, by decide⟩, h.1, h.2 ServerState.initial ?_⟩
  intro b hb
  simp [ServerState.initial] at hb

theorem jsSetKey_find? (fields : List (String × Json)) (k : String) (v : Json) :
    (jsSetKey fields k v).find? (fun f => f.1 == k) = some (k, v) := by
  induction fields with
  | nil => simp [jsSetKey, List.find?]
  | cons f rest ih =>
    by_cases hf : (f.1 == k) = true
    · simp [jsSetKey, hf, List.find?]
    · simp only [jsSetKey, Bool.not_eq_true] at hf
      simp [jsSetKey, hf, List.find?, ih]

theorem getField_jsSetKey (fields : List (String × Json)) (k : String) (v : Json) :
    (Json.obj (jsSetKey fields k v)).getField k = some v := by
  simp [Json.getField, jsSetKey_find?]

theorem updateImageAt_length (bd : BannerRecord) :
    ∀ (l : List ImageRecord) (i : Nat),
      (updateImageAt l i bd).length = l.length := by
  intro l
  induction l with
  | nil => intro i; rfl
  | cons a t ih =>
    intro i
    cases i with
    | zero => simp [updateImageAt]
    | succ i => simp [updateImageAt, ih]

theorem updateImageAt_getD_ne (bd : BannerRecord) (d : ImageRecord) :
    ∀ (l : List ImageRecord) (i j : Nat), j ≠ i →
      (updateImageAt l i bd).getD j d = l.getD j d := by
  intro l
  induction l with
  | nil => intro i j _; rfl
  | cons a t ih =>
    intro i j hne
    cases i with
    | zero =>
      cases j with
      | zero => exact absurd rfl hne
      | succ j => simp [updateImageAt, List.getD_cons_succ]
    | succ i =>
      cases j with
      | zero => simp [updateImageAt, List.getD_cons_zero]
      | succ j =>
        simp only [updateImageAt, List.getD_cons_succ]
        exact ih i j (fun he => hne (by rw [he]))

theorem updateImageAt_getD_eq (bd : BannerRecord) (d : ImageRecord) :
    ∀ (l : List ImageRecord) (i : Nat), i < l.length →
      (updateImageAt l i bd).getD i d =
        { url := (l.getD i d).url,
          metadata := setBannerDataField (l.getD i d).metadata bd,
          timestamp := (l.getD i d).timestamp } := by
  intro l
  induction l with
  | nil =>
    intro i hi
    simp at hi
  | cons a t ih =>
    intro i hi
    cases i with
    | zero => simp [updateImageAt, List.getD_cons_zero]
    | succ i =>
      simp only [updateImageAt, List.getD_cons_succ]
      exact ih i (by simp only [List.length_cons] at hi; omega)

theorem findFirstIdx_eq_some {α : Type} (p : α → Bool) (d : α) :
    ∀ (l : List α) (i : Nat), i < l.length →
      p (l.getD i d) = true →
      (∀ j, j < i → p (l.getD j d) = false) →
      findFirstIdx p l = some i := by
  intro l
  induction l with
  | nil =>
    intro i hi
    simp at hi
  | cons a t ih =>
    intro i hi hp hfirst
    cases i with
    | zero =>
      simp only [List.getD_cons_zero] at hp
      simp [findFirstIdx, hp]
    | succ i =>
      have ha : p a = false := by
        have := hfirst 0 (Nat.succ_pos i)
        simpa using this
      simp only [List.getD_cons_succ] at hp
      have hlen : i < t.length := by
        simp only [List.length_cons] at hi
        omega
      have hfirst2 : ∀ j, j < i → p (t.getD j d) = false := by
        intro j hj
        have := hfirst (j + 1) (by omega)
        simpa using this
      simp [findFirstIdx, ha, ih i hlen hp hfirst2]

theorem findFirstIdx_eq_none {α : Type} (p : α → Bool) :
    ∀ l : List α, (∀ a ∈ l, p a = false) → findFirstIdx p l = none := by
  intro l
  induction l with
  | nil => intro _; rfl
  | cons a t ih =>
    intro hall
    have ha : p a = false := hall a (by simp)
    have ht : ∀ b ∈ t, p b = false := fun b hb => hall b (by simp [hb])
    simp [findFirstIdx, ha, ih ht]

theorem findFirstIdx_updateImageAt (bd : BannerRecord) (u : Json) :
    ∀ (l : List ImageRecord) (i : Nat),
      findFirstIdx (fun img => jsStrictEq img.url u) (updateImageAt l i bd)
        = findFirstIdx (fun img => jsStrictEq img.url u) l := by
  intro l
  induction l with
  | nil => intro i; rfl
  | cons a t ih =>
    intro i
    cases i with
    | zero => simp [updateImageAt, findFirstIdx]
    | succ i => simp [updateImageAt, findFirstIdx, ih]

theorem postBannerData_valid_found (st : ServerState) (u b p ty : Json)
    (now i : Nat)
    (hu : isFalsy u = false) (hb : isFalsy b = false)
    (hp : isFalsy p = false) (hty : isFalsy ty = false)
    (hidx : findFirstIdx (fun img => jsStrictEq img.url u) st.imageHistory
      = some i) :
    postBannerData st (bannerBodyOf u b p ty) now =
      ({ st with
          imageHistory := updateImageAt st.imageHistory i ⟨u, b, p, ty, now⟩,
          bannerDataHistory := st.bannerDataHistory ++ [⟨u, b, p, ty, now⟩] },
       201,
       [Emit.broadcast (SocketEvent.imageHistoryEvent
          (updateImageAt st.imageHistory i ⟨u, b, p, ty, now⟩))]) := by
  unfold postBannerData
  have hg1 : (bannerBodyOf u b p ty).getField "imageUrl" = some u := rfl
  have hg2 : (bannerBodyOf u b p ty).getField "brand" = some b := rfl
  have hg3 : (bannerBodyOf u b p ty).getField "position" = some p := rfl
  have hg4 : (bannerBodyOf u b p ty).getField "type" = some ty := rfl
  rw [hg1, hg2, hg3, hg4]
  simp [hu, hb, hp, hty, hidx]

theorem postBannerData_valid_notfound (st : ServerState) (u b p ty : Json)
    (now : Nat)
    (hu : isFalsy u = false) (hb : isFalsy b = false)
    (hp : isFalsy p = false) (hty : isFalsy ty = false)
    (hidx : findFirstIdx (fun img => jsStrictEq img.url u) st.imageHistory
      = none) :
    postBannerData st (bannerBodyOf u b p ty) now =
      ({ st with bannerDataHistory := st.bannerDataHistory ++ [⟨u, b, p, ty, now⟩] },
       201, []) := by
  unfold postBannerData
  have hg1 : (bannerBodyOf u b p ty).getField "imageUrl" = some u := rfl
  have hg2 : (bannerBodyOf u b p ty).getField "brand" = some b := rfl
  have hg3 : (bannerBodyOf u b p ty).getField "position" = some p := rfl
  have hg4 : (bannerBodyOf u b p ty).getField "type" = some ty := rfl
  rw [hg1, hg2, hg3, hg4]
  simp [hu, hb, hp, hty, hidx]

/-- C2 counterexample: from the initial state post an image with url
"a" and metadata 5 (truthy, so stored as is), then post matching banner
data. The scan finds the image (index 0) and the request succeeds with
201, yet the image history is completely unchanged and the matched
record gains no bannerData, because property assignment on the number 5
is a silent no-op; the claim says the matched record is mutated. -/
theorem banner_attach_claim_counterexample :
    c2ImageState.imageHistory
      = [{ url := Json.str "a", metadata := Json.num 5, timestamp := 0 }] ∧
    findFirstIdx (fun img => jsStrictEq img.url (Json.str "a"))
      c2ImageState.imageHistory = some 0 ∧
    (postBannerData c2ImageState c2BannerBody 1).2.1 = 201 ∧
    (postBannerData c2ImageState c2BannerBody 1).1.imageHistory
      = c2ImageState.imageHistory ∧
    ((postBannerData c2ImageState c2BannerBody 1).1.imageHistory.getD 0
        default).metadata.getField "bannerData" = none :=
  ⟨rfl, rfl, rfl, rfl, rfl⟩

/-- C2 amended: a banner POST whose imageUrl matches stored images
mutates at most the first matching image (newest first): the banner
record is appended, the image count is unchanged, every non-matched
record is untouched, the matched record keeps its url and timestamp,
and when its metadata is a JSON object the bannerData key is set to the
new banner record; when its metadata is a non-object value (possible
because the image endpoint accepts any truthy metadata) the matched
record is left entirely unchanged. A banner POST with no matching image
appends the banner record and leaves every image record unchanged. -/
theorem banner_attach_first_match_amended
    (st : ServerState) (u b p ty : Json) (now i : Nat)
    (hu : isFalsy u = false) (hb : isFalsy b = false)
    (hp : isFalsy p = false) (hty : isFalsy ty = false)
    (hi : i < st.imageHistory.length)
    (hmatch : jsStrictEq ((st.imageHistory.getD i default).url) u = true)
    (hfirst : ∀ j, j < i →
      jsStrictEq ((st.imageHistory.getD j default).url) u = false) :
    (postBannerData st (bannerBodyOf u b p ty) now).2.1 = 201 ∧
    (postBannerData st (bannerBodyOf u b p ty) now).1.bannerDataHistory
      = st.bannerDataHistory ++ [⟨u, b, p, ty, now⟩] ∧
    (postBannerData st (bannerBodyOf u b p ty) now).1.imageHistory.length
      = st.imageHistory.length ∧
    (∀ j, j ≠ i →
      (postBannerData st (bannerBodyOf u b p ty) now).1.imageHistory.getD j default
        = st.imageHistory.getD j default) ∧
    ((postBannerData st (bannerBodyOf u b p ty) now).1.imageHistory.getD i
        default).url = (st.imageHistory.getD i default).url ∧
    ((postBannerData st (bannerBodyOf u b p ty) now).1.imageHistory.getD i
        default).timestamp = (st.imageHistory.getD i default).timestamp ∧
    (∀ fs, (st.imageHistory.getD i default).metadata = Json.obj fs →
      ((postBannerData st (bannerBodyOf u b p ty) now).1.imageHistory.getD i
          default).metadata.getField "bannerData"
        = some (bannerToJson ⟨u, b, p, ty, now⟩)) ∧
    ((∀ fs, (st.imageHistory.getD i default).metadata ≠ Json.obj fs) →
      (postBannerData st (bannerBodyOf u b p ty) now).1.imageHistory.getD i default
        = st.imageHistory.getD i default) ∧
    (∀ st2 : ServerState,
      (∀ img ∈ st2.imageHistory, jsStrictEq img.url u = false) →
      (postBannerData st2 (bannerBodyOf u b p ty) now).2.1 = 201 ∧
      (postBannerData st2 (bannerBodyOf u b p ty) now).1.imageHistory
        = st2.imageHistory ∧
      (postBannerData st2 (bannerBodyOf u b p ty) now).1.bannerDataHistory
        = st2.bannerDataHistory ++ [⟨u, b, p, ty, now⟩]) := by
  have hidx := findFirstIdx_eq_some (fun img => jsStrictEq img.url u) default
    st.imageHistory i hi hmatch hfirst
  rw [postBannerData_valid_found st u b p ty now i hu hb hp hty hidx]
  refine ⟨rfl, rfl, updateImageAt_length _ _ _, ?_, ?_, ?_, ?_, ?_, ?_⟩
  · intro j hj
    exact updateImageAt_getD_ne _ _ _ _ _ hj
  · rw [updateImageAt_getD_eq ⟨u, b, p, ty, now⟩ default st.imageHistory i hi]
  · rw [updateImageAt_getD_eq ⟨u, b, p, ty, now⟩ default st.imageHistory i hi]
  · intro fs hfs
    rw [updateImageAt_getD_eq ⟨u, b, p, ty, now⟩ default st.imageHistory i hi]
    simp only [hfs, setBannerDataField]
    exact getField_jsSetKey fs "bannerData" (bannerToJson ⟨u, b, p, ty, now⟩)
  · intro hno
    rw [updateImageAt_getD_eq ⟨u, b, p, ty, now⟩ default st.imageHistory i hi]
    cases hmeta : (st.imageHistory.getD i default).metadata with
    | obj fs => exact absurd hmeta (hno fs)
    | null => simp only [setBannerDataField]; rw [← hmeta]
    | bool mb => simp only [setBannerDataField]; rw [← hmeta]
    | num mn => simp only [setBannerDataField]; rw [← hmeta]
    | str ms => simp only [setBannerDataField]; rw [← hmeta]
    | arr ma => simp only [setBannerDataField]; rw [← hmeta]
  · intro st2 hall
    have hidx2 := findFirstIdx_eq_none (fun img => jsStrictEq img.url u)
      st2.imageHistory hall
    rw [postBannerData_valid_notfound st2 u b p ty now hu hb hp hty hidx2]
    exact ⟨rfl, rfl, rfl⟩

theorem banner_attach_first_match_amended_witness :
    (isFalsy (Json.str "a") = false ∧ isFalsy (Json.str "b") = false ∧
     isFalsy (Json.str "p") = false ∧ isFalsy (Json.str "t") = false ∧
     0 < imgStateA.imageHistory.length ∧
     jsStrictEq ((imgStateA.imageHistory.getD 0 default).url)
       (Json.str "a") = true ∧
     (imgStateA.imageHistory.getD 0 default).metadata = Json.obj []) ∧
    ((postBannerData imgStateA c2BannerBody 1).2.1 = 201 ∧
     ((postBannerData imgStateA c2BannerBody 1).1.imageHistory.getD 0
        default).metadata.getField "bannerData"
       = some (bannerToJson ⟨Json.str "a", Json.str "b", Json.str "p",
           Json.str "t", 1⟩)) := by
  have h := banner_attach_first_match_amended imgStateA
    (Json.str "a") (Json.str "b") (Json.str "p") (Json.str "t") 1 0
    rfl rfl rfl rfl (by decide) (by decide)
    (fun j hj => absurd hj (Nat.not_lt_zero j))
  exact ⟨⟨rfl, rfl, rfl, rfl, by decide, by decide, rfl⟩,
    h.1, h.2.2.2.2.2.2.1 [] rfl⟩

/-- C10: when two banner records with the same imageUrl are posted and
a matching image (with object metadata and no earlier banner for that
url) exists, the two views disagree: the matched image metadata holds
the later banner record under bannerData, while the lookup endpoint
returns the earlier one. -/
theorem banner_image_view_vs_lookup_disagree
    (st : ServerState) (url : String) (b1 p1 t1 b2 p2 t2 : Json)
    (now1 now2 i : Nat) (fs : List (String × Json))
    (hu : isFalsy (Json.str url) = false)
    (hb1 : isFalsy b1 = false) (hp1 : isFalsy p1 = false)
    (ht1 : isFalsy t1 = false)
    (hb2 : isFalsy b2 = false) (hp2 : isFalsy p2 = false)
    (ht2 : isFalsy t2 = false)
    (hi : i < st.imageHistory.length)
    (hmatch : jsStrictEq ((st.imageHistory.getD i default).url)
      (Json.str url) = true)
    (hfirst : ∀ j, j < i →
      jsStrictEq ((st.imageHistory.getD j default).url) (Json.str url) = false)
    (hobj : (st.imageHistory.getD i default).metadata = Json.obj fs)
    (hnob : ∀ bnr ∈ st.bannerDataHistory,
      jsStrictEq bnr.imageUrl (Json.str url) = false) :
    ((postBannerData (postBannerData st
          (bannerBodyOf (Json.str url) b1 p1 t1) now1).1
        (bannerBodyOf (Json.str url) b2 p2 t2) now2).1.imageHistory.getD i
        default).metadata.getField "bannerData"
      = some (bannerToJson ⟨Json.str url, b2, p2, t2, now2⟩) ∧
    getBannerDataByUrl (postBannerData (postBannerData st
          (bannerBodyOf (Json.str url) b1 p1 t1) now1).1
        (bannerBodyOf (Json.str url) b2 p2 t2) now2).1 url
      = ((postBannerData (postBannerData st
            (bannerBodyOf (Json.str url) b1 p1 t1) now1).1
          (bannerBodyOf (Json.str url) b2 p2 t2) now2).1, 200,
         some ⟨Json.str url, b1, p1, t1, now1⟩) := by
  have hidx := findFirstIdx_eq_some (fun img => jsStrictEq img.url (Json.str url))
    default st.imageHistory i hi hmatch hfirst
  have h1 := postBannerData_valid_found st (Json.str url) b1 p1 t1 now1 i
    hu hb1 hp1 ht1 hidx
  rw [h1]
  have hidx1 : findFirstIdx (fun img => jsStrictEq img.url (Json.str url))
      (updateImageAt st.imageHistory i ⟨Json.str url, b1, p1, t1, now1⟩)
      = some i := by
    rw [findFirstIdx_updateImageAt]
    exact hidx
  have h2 := postBannerData_valid_found
    { st with
        imageHistory := updateImageAt st.imageHistory i
          ⟨Json.str url, b1, p1, t1, now1⟩,
        bannerDataHistory := st.bannerDataHistory ++
          [⟨Json.str url, b1, p1, t1, now1⟩] }
    (Json.str url) b2 p2 t2 now2 i hu hb2 hp2 ht2 hidx1
  rw [h2]
  constructor
  · have hlen1 : i < (updateImageAt st.imageHistory i
        ⟨Json.str url, b1, p1, t1, now1⟩).length := by
      rw [updateImageAt_length]
      exact hi
    have g2 := updateImageAt_getD_eq ⟨Json.str url, b2, p2, t2, now2⟩ default
      (updateImageAt st.imageHistory i ⟨Json.str url, b1, p1, t1, now1⟩) i hlen1
    have g1 := updateImageAt_getD_eq ⟨Json.str url, b1, p1, t1, now1⟩ default
      st.imageHistory i hi
    show ((updateImageAt (updateImageAt st.imageHistory i
        ⟨Json.str url, b1, p1, t1, now1⟩) i
        ⟨Json.str url, b2, p2, t2, now2⟩).getD i
        default).metadata.getField "bannerData" = _
    rw [g2, g1]
    simp only [hobj, setBannerDataField]
    exact getField_jsSetKey _ _ _
  · have hrefl : jsStrictEq (Json.str url) (Json.str url) = true := by
      simp [jsStrictEq]
    have hfindnone : st.bannerDataHistory.find?
        (fun item => jsStrictEq item.imageUrl (Json.str url)) = none := by
      rw [List.find?_eq_none]
      intro x hx
      simp [hnob x hx]
    have hfind : ((st.bannerDataHistory ++ [(⟨Json.str url, b1, p1, t1, now1⟩ : BannerRecord)])
        ++ [(⟨Json.str url, b2, p2, t2, now2⟩ : BannerRecord)]).find?
        (fun item => jsStrictEq item.imageUrl (Json.str url))
        = some ⟨Json.str url, b1, p1, t1, now1⟩ := by
      simp [List.find?_append, hfindnone, List.find?, hrefl]
    unfold getBannerDataByUrl
    rw [hfind]

theorem banner_image_view_vs_lookup_disagree_witness :
    (0 < imgStateA.imageHistory.length ∧
     jsStrictEq ((imgStateA.imageHistory.getD 0 default).url)
       (Json.str "a") = true ∧
     (imgStateA.imageHistory.getD 0 default).metadata = Json.obj [] ∧
     imgStateA.bannerDataHistory = []) ∧
    ((c10Post2.imageHistory.getD 0 default).metadata.getField "bannerData"
       = some (bannerToJson ⟨Json.str "a", Json.str "B2", Json.str "P2",
           Json.str "T2", 2⟩) ∧
     (getBannerDataByUrl c10Post2 "a").2.1 = 200 ∧
     (getBannerDataByUrl c10Post2 "a").2.2
       = some ⟨Json.str "a", Json.str "B1", Json.str "P1", Json.str "T1", 1⟩) := by
  have hnob : ∀ bnr ∈ imgStateA.bannerDataHistory,
      jsStrictEq bnr.imageUrl (Json.str "a") = false := by
    intro bnr hb
    have he : imgStateA.bannerDataHistory = ([] : List BannerRecord) := rfl
    rw [he] at hb
    exact absurd hb (List.not_mem_nil bnr)
  have h := banner_image_view_vs_lookup_disagree imgStateA "a"
    (Json.str "B1") (Json.str "P1") (Json.str "T1")
    (Json.str "B2") (Json.str "P2") (Json.str "T2") 1 2 0 []
    rfl rfl rfl rfl rfl rfl rfl (by decide) (by decide)
    (fun j hj => absurd hj (Nat.not_lt_zero j)) rfl hnob
  refine ⟨⟨by decide, by decide, rfl, rfl⟩, h.1, ?_, ?_⟩
  · exact congrArg (fun t => t.2.1) h.2
  · exact congrArg (fun t => t.2.2) h.2
